import Mathlib

/-!
Shallow embedding of the MCP web-automation server and scraping agent
(`src/errors.py`, `src/browser.py`, `src/mcp_server.py`, `src/scraping_agent.py`).

Python dictionaries are modelled as association lists that keep insertion
order (matching CPython's ordered dicts); machine floats used only for the
completion rate are modelled as rationals; fallible Python code is modelled
with `Except`.
-/

namespace MCPWeb

/-- Stable error codes surfaced to MCP clients (`errors.ErrorCode`). -/
inductive ErrCode where
  | INVALID_URL
  | NAVIGATION_TIMEOUT
  | NETWORK_ERROR
  | ELEMENT_NOT_FOUND
  | ELEMENT_NOT_VISIBLE
  | ELEMENT_NOT_EDITABLE
  | ELEMENT_NOT_CLICKABLE
  | INTERNAL_ERROR
  deriving DecidableEq, Repr

/-- `ErrorCode.value`: the string value of each enum member. -/
def ErrCode.value : ErrCode → String
  | .INVALID_URL => "INVALID_URL"
  | .NAVIGATION_TIMEOUT => "NAVIGATION_TIMEOUT"
  | .NETWORK_ERROR => "NETWORK_ERROR"
  | .ELEMENT_NOT_FOUND => "ELEMENT_NOT_FOUND"
  | .ELEMENT_NOT_VISIBLE => "ELEMENT_NOT_VISIBLE"
  | .ELEMENT_NOT_CLICKABLE => "ELEMENT_NOT_CLICKABLE"
  | .ELEMENT_NOT_EDITABLE => "ELEMENT_NOT_EDITABLE"
  | .INTERNAL_ERROR => "INTERNAL_ERROR"

/-- `errors.ToolError`: domain-specific exception carried by tool code.
`details` is an optional mapping; the empty list models an absent/empty
(falsy) `details`, matching `if self.details:` in `to_payload`. -/
structure ToolErr where
  code : ErrCode
  message : String
  details : List (String × String) := []
  deriving DecidableEq, Repr

/-- `ToolError.__str__`: `f"{self.code.value}: {self.message}"`, which is the
text `str(e)` reports when the agent turns a caught exception into a job
error message. -/
def ToolErr.str (e : ToolErr) : String := e.code.value ++ ": " ++ e.message

/-- JSON-like Python values (dicts, lists, strings, numbers, booleans, None)
as they flow through schemas, extracted items and tool envelopes. -/
inductive JVal where
  | null
  | str (s : String)
  | num (n : Int)
  | bool (b : Bool)
  | obj (fields : List (String × JVal))
  | arr (elems : List JVal)
  deriving Repr

/-- A field value counts as missing when it is `None` or the empty string
(`value is None or value == ""` in `_check_item_completeness`; in Python
only strings compare equal to `""`). -/
def isMissing : JVal → Bool
  | .null => true
  | .str s => s = ""
  | _ => false

/-- `missing_fields[field_path] = missing_fields.get(field_path, 0) + 1` on an
insertion-ordered dict: bump the count in place when the key exists,
otherwise append the key with count 1. -/
def bump : List (String × Nat) → String → List (String × Nat)
  | [], path => [(path, 1)]
  | (k, c) :: rest, path =>
      if k = path then (k, c + 1) :: rest else (k, c) :: bump rest path

/-- First-match lookup in an association list (Python dict read). -/
def alookup {β : Type} : List (String × β) → String → Option β
  | [], _ => none
  | (k, v) :: rest, key => if k = key then some v else alookup rest key

mutual

/-- `check_nested(obj, prefix)` from `ScrapingAgent._check_item_completeness`:
walks a value, threading the state `(is_complete, missing_fields)`. -/
def checkNested (v : JVal) (pre : String) (st : Bool × List (String × Nat)) :
    Bool × List (String × Nat) :=
  match v with
  | .obj fields => checkFields fields pre st
  | .arr elems => checkElems elems pre st
  | _ => st

/-- The dict branch of `check_nested`: for each key/value pair, a missing value
marks the item incomplete and bumps the dotted field path; dict or list
values are recursed into with the extended path. -/
def checkFields (fields : List (String × JVal)) (pre : String)
    (st : Bool × List (String × Nat)) : Bool × List (String × Nat) :=
  match fields with
  | [] => st
  | (key, value) :: rest =>
      let path := if pre = "" then key else pre ++ "." ++ key
      let st1 :=
        if isMissing value then (false, bump st.2 path)
        else
          match value with
          | .obj fs => checkFields fs path st
          | .arr es => checkElems es path st
          | _ => st
      checkFields rest pre st1

/-- The list branch of `check_nested`: every element is walked with the same
unchanged prefix (the list index is not part of the path). -/
def checkElems (elems : List JVal) (pre : String)
    (st : Bool × List (String × Nat)) : Bool × List (String × Nat) :=
  match elems with
  | [] => st
  | e :: rest => checkElems rest pre (checkNested e pre st)

end

/-- `ScrapingAgent._check_item_completeness`: runs the nested walk on one item
with a fresh `is_complete = True` flag and the shared missing-fields table. -/
def checkItemCompleteness (item : JVal) (mf : List (String × Nat)) :
    Bool × List (String × Nat) :=
  checkNested item "" (true, mf)

/-- The quality report produced by `_generate_quality_report`. -/
structure QReport where
  total_items : Nat
  complete_items : Nat
  completion_rate : ℚ
  missing_fields : List String
  errors : List String
  deriving DecidableEq, Repr

/-- Round-half-to-even on a rational, the tie rule CPython's `round` applies
to exactly representable values. -/
def roundHalfEven (q : ℚ) : ℤ :=
  let f := ⌊q⌋
  let frac := q - (f : ℚ)
  if frac < 1/2 then f
  else if 1/2 < frac then f + 1
  else if f % 2 = 0 then f else f + 1

/-- Embedding of Python's `round(x, 3)`. -/
def round3 (q : ℚ) : ℚ := (roundHalfEven (q * 1000) : ℚ) / 1000

/-- `items = []; for key, value in structured_data.items(): if isinstance(value,
list): items = value; break` — the first list value of the structured dict. -/
def firstListValue : List (String × JVal) → List JVal
  | [] => []
  | (_, .arr elems) :: _ => elems
  | _ :: rest => firstListValue rest

/-- The per-item accumulation loop of `_generate_quality_report`: counts
complete items and threads the shared missing-fields dict. -/
def analyzeItems (items : List JVal) : Nat × List (String × Nat) :=
  items.foldl
    (fun acc item =>
      let r := checkItemCompleteness item acc.2
      (if r.1 then acc.1 + 1 else acc.1, r.2))
    (0, [])

/-- `ScrapingAgent._generate_quality_report`. -/
def generateQualityReport (structured : List (String × JVal)) : QReport :=
  let items := firstListValue structured
  let total := items.length
  if total = 0 then
    { total_items := 0, complete_items := 0, completion_rate := 0,
      missing_fields := [], errors := [] }
  else
    let a := analyzeItems items
    let rate : ℚ := (a.1 : ℚ) / (total : ℚ)
    { total_items := total, complete_items := a.1,
      completion_rate := round3 rate,
      missing_fields := a.2.map (fun kv => kv.1 ++ ": " ++ toString kv.2 ++ " items"),
      errors := [] }

/-- `array_field` search in `_structure_data`: the first schema key whose value
is a non-empty Python list (`isinstance(value, list) and len(value) > 0`). -/
def findArrayField : List (String × JVal) → Option String
  | [] => none
  | (k, .arr (_ :: _)) :: _ => some k
  | _ :: rest => findArrayField rest

/-- Python dict assignment `d[k] = v` on an insertion-ordered dict: overwrite
in place when the key exists, otherwise append. -/
def aset : List (String × JVal) → String → JVal → List (String × JVal)
  | [], key, v => [(key, v)]
  | (k, w) :: rest, key, v =>
      if k = key then (k, v) :: rest else (k, w) :: aset rest key v

/-- `ScrapingAgent._structure_data`. `now` stands for
`datetime.utcnow().isoformat() + "Z"`. -/
def structureData (now : String) (extractedItems : List JVal)
    (schema : List (String × JVal)) : List (String × JVal) :=
  let base :=
    match findArrayField schema with
    | some k => [(k, JVal.arr extractedItems)]
    | none => [("items", JVal.arr extractedItems)]
  if (alookup schema "metadata").isSome then
    aset base "metadata"
      (.obj [("date_extraction", .str now),
             ("nb_resultats", .num extractedItems.length)])
  else base

/-- Python `str.strip()` (ASCII whitespace), written on the character list so
it evaluates inside the kernel, unlike `String.trim`. -/
def pstrip (s : String) : String :=
  ⟨((s.data.dropWhile Char.isWhitespace).reverse.dropWhile Char.isWhitespace).reverse⟩

/-- Python `s.startswith(t)`. -/
def pStartsWith (s t : String) : Bool := t.data.isPrefixOf s.data

/-- Python `s.endswith(t)`. -/
def pEndsWith (s t : String) : Bool := t.data.reverse.isPrefixOf s.data.reverse

/-- Python `s.split("\n")`. -/
def pSplitNL (s : String) : List String := (s.data.splitOn '\n').map String.mk

/-- Python `"\n".join(lines)`. -/
def pJoinNL : List String → String
  | [] => ""
  | [x] => x
  | x :: xs => x ++ "\n" ++ pJoinNL xs

/-! ### Tool execution service (`mcp_server.ToolService`) -/

/-- A Python exception escaping a tool's `run`: either the domain `ToolError`
or any other exception carrying its `str(exc)` message. -/
inductive PyExc where
  | toolError (e : ToolErr)
  | other (message : String)
  deriving DecidableEq, Repr

/-- The uniform error payload `{code, message, optional details}`.
An empty `details` list models an absent `details` key. -/
structure ErrPayload where
  code : String
  message : String
  details : List (String × String) := []
  deriving DecidableEq, Repr

/-- `errors.ToolError.to_payload`. -/
def ToolErr.toPayload (e : ToolErr) : ErrPayload :=
  { code := e.code.value, message := e.message, details := e.details }

/-- `errors.to_error_payload`: `ToolError` keeps its payload, anything else
collapses to `INTERNAL_ERROR` with `str(exc) or "Internal error"`. -/
def toErrorPayload : PyExc → ErrPayload
  | .toolError e => e.toPayload
  | .other msg =>
      { code := ErrCode.INTERNAL_ERROR.value,
        message := if msg = "" then "Internal error" else msg }

/-- Python truthiness of a JSON-like value, as used by
`if incoming_args.get("session_id"):`. -/
def JVal.truthy : JVal → Bool
  | .null => false
  | .str s => s ≠ ""
  | .num n => n ≠ 0
  | .bool b => b
  | .obj fields => !fields.isEmpty
  | .arr elems => !elems.isEmpty

/-- One registered tool: `tools.base.ToolDefinition`, with `run` the callable
taking the raw arguments and returning `(session_id, data)` or raising. -/
structure ToolDef where
  name : String
  description : String
  run : List (String × JVal) → Except PyExc (String × List (String × JVal))

/-- The uniform success/error envelope returned by `ToolService.call`.
`session_id := none` models an absent `session_id` key; `ts`/`duration_ms`
are the `meta` mapping. -/
structure Envelope where
  ok : Bool
  tool : String
  session_id : Option JVal := none
  data : Option (List (String × JVal)) := none
  error : Option ErrPayload := none
  ts : String
  duration_ms : Nat

/-- The wall-clock observations `_timestamp()` / `_duration_ms(start)` made
during one call, supplied by the environment. -/
structure CallClock where
  ts : String
  duration : Nat

/-- Tool registry lookup (`name not in self.tools` / `self.tools[name]`). -/
def lookupTool : List (String × ToolDef) → String → Option ToolDef
  | [], _ => none
  | (k, t) :: rest, name => if k = name then some t else lookupTool rest name

/-- `ToolService.call(name, arguments)`: total function — every outcome,
including any exception escaping the tool, is turned into an `Envelope`. -/
def ToolService.call (tools : List (String × ToolDef)) (clock : CallClock)
    (name : String) (args : List (String × JVal)) : Envelope :=
  match lookupTool tools name with
  | none =>
      { ok := false, tool := name,
        error := some { code := ErrCode.INTERNAL_ERROR.value,
                        message := "Unknown tool: " ++ name },
        ts := clock.ts, duration_ms := 0 }
  | some tool =>
      match tool.run args with
      | .error (.toolError exc) =>
          let failure : Envelope :=
            { ok := false, tool := name, error := some exc.toPayload,
              ts := clock.ts, duration_ms := clock.duration }
          match alookup args "session_id" with
          | some v => if v.truthy then { failure with session_id := some v } else failure
          | none => failure
      | .error (.other msg) =>
          { ok := false, tool := name, error := some (toErrorPayload (.other msg)),
            ts := clock.ts, duration_ms := clock.duration }
      | .ok (sid, data) =>
          { ok := true, tool := name, session_id := some (.str sid),
            data := some data, ts := clock.ts, duration_ms := clock.duration }

/-! ### Request dispatcher (`mcp_server.MCPServer`) -/

/-- A parsed MCP request (`MCPRequest` pydantic model): `id` is a string, an
integer or null. -/
structure MCPReq where
  id : JVal
  method : String
  params : List (String × JVal)

/-- An outgoing `MCPResponse`: exactly one of `result`/`error` is meant to be
present. The `result` mapping is kept opaque; errors reuse the uniform
payload shape, whose `details` carries the rendered `exc.errors()` entries
of a pydantic `ValidationError`. -/
structure MCPResp where
  id : JVal
  result : Option (List (String × JVal)) := none
  error : Option ErrPayload := none

/-- A failure escaping `MCPServer.handle`: a pydantic `ValidationError` from
`ToolCallParams.model_validate` or any other exception. -/
inductive HandleExc where
  | validation (errs : List (String × String))
  | exc (e : PyExc)

/-- The environment of the dispatch loop: the pydantic line parser
(`MCPRequest.model_validate_json`) and the routed handler
(`MCPServer.handle`) with its possible escaping failures. -/
structure DispatchEnv where
  parse : String → Except (List (String × String)) MCPReq
  handle : MCPReq → Except HandleExc MCPResp

/-- `MCPServer._dispatch(payload)`. -/
def dispatch (env : DispatchEnv) (payload : String) : MCPResp :=
  match env.parse payload with
  | .error errs =>
      { id := JVal.null,
        error := some { code := ErrCode.INTERNAL_ERROR.value,
                        message := "Invalid request payload", details := errs } }
  | .ok req =>
      match env.handle req with
      | .ok resp => resp
      | .error (.validation errs) =>
          { id := req.id,
            error := some { code := ErrCode.INTERNAL_ERROR.value,
                            message := "Invalid parameters", details := errs } }
      | .error (.exc e) => { id := req.id, error := some (toErrorPayload e) }

/-- `MCPServer.serve_forever`: strip each stdin line, skip blank ones, and
emit exactly one response per remaining line. -/
def serveLines (env : DispatchEnv) : List String → List MCPResp
  | [] => []
  | rawLine :: rest =>
      let line := pstrip rawLine
      if line = "" then serveLines env rest
      else dispatch env line :: serveLines env rest

/-! ### Browser session boundary (`browser.BrowserManager`) -/

/-- The `f"sess_{uuid.uuid4().hex[:12]}"` fresh-identifier supply, modelled as
a counter whose draws are pairwise distinct `"sess_"`-prefixed names (the
code assumes uuid4 draws never collide). -/
def genId (n : Nat) : String := "sess_" ++ String.mk (List.replicate n 'f')

/-- The mutable state of the `BrowserManager` singleton: the `_sessions` dict
(session id → page handle, pages numbered by creation) plus the two fresh
supplies (next page handle, next uuid draw). -/
structure BrowserState where
  sessions : List (String × Nat)
  nextPage : Nat
  nextId : Nat
  deriving DecidableEq, Repr

/-- `session_id in self._sessions` / `self._sessions[session_id]`. -/
def lookupSession : List (String × Nat) → String → Option Nat
  | [], _ => none
  | (k, p) :: rest, key => if k = key then some p else lookupSession rest key

/-- Dict assignment `self._sessions[session_id] = StoredPage(...)`. -/
def storeSession : List (String × Nat) → String → Nat → List (String × Nat)
  | [], key, p => [(key, p)]
  | (k, q) :: rest, key, p =>
      if k = key then (k, p) :: rest else (k, q) :: storeSession rest key p

/-- `BrowserManager.session(session_id)`: reuse the stored page when the given
identifier is truthy (non-empty) and known; otherwise create a fresh
context/page and store it under `session_id or f"sess_..."`. -/
def BrowserManager.session (st : BrowserState) (sid : Option String) :
    (String × Nat) × BrowserState :=
  match sid with
  | some s =>
      if s = "" then
        -- falsy identifier: `session_id or f"sess_..."` mints a fresh one
        let page := st.nextPage
        let newId := genId st.nextId
        ((newId, page),
         { sessions := storeSession st.sessions newId page,
           nextPage := st.nextPage + 1, nextId := st.nextId + 1 })
      else
        match lookupSession st.sessions s with
        | some page => ((s, page), st)
        | none =>
            -- truthy but unknown: fresh page stored under the *given* id
            let page := st.nextPage
            ((s, page),
             { sessions := storeSession st.sessions s page,
               nextPage := st.nextPage + 1, nextId := st.nextId })
  | none =>
      let page := st.nextPage
      let newId := genId st.nextId
      ((newId, page),
       { sessions := storeSession st.sessions newId page,
         nextPage := st.nextPage + 1, nextId := st.nextId + 1 })

/-! ### Scraping agent (`scraping_agent.ScrapingAgent`) -/

/-- One configured pre-interaction (`config.interactions` entries). -/
inductive Interaction where
  | click (selector : String)
  | fill (selector : String) (value : String)
  | wait (durationMs : Int)
  | scroll (direction : String)
  | unknown (tag : Option String)

/-- `ScrapingConfig` with the two options `_scrape` reads already decoded:
`options.get("max_pages", 1)` and `options.get("pagination", False)`. -/
structure ScrapingCfg where
  url : String
  schema : List (String × JVal)
  interactions : List Interaction := []
  pagination : Bool := false
  maxPages : Nat := 1

/-- The environment a scraping job runs against: outcomes of the tool calls
made through `_call_tool` (which raises `ToolError` on a failed envelope),
of the two LLM calls (whose unexpected exceptions carry a message), and
the extraction timestamp. Tool-call outcomes are indexed by the page
number being processed. -/
structure AgentEnv where
  nav : Except ToolErr String
  interact : Nat → Except ToolErr Unit
  getHtml : Nat → Except ToolErr String
  extract : Nat → Except String (List JVal)
  probe : Nat → Except String String
  click : Nat → String → Except ToolErr Unit
  now : String

/-- The selector clean-up in `_navigate_to_next_page`: strip the LLM response,
remove a ``` fenced block, then unwrap a single pair of inline backticks. -/
def cleanSelector (content : String) : String :=
  let selector := pstrip content
  let selector :=
    if pStartsWith selector "```" then
      let lines := pSplitNL selector
      let lines := if pStartsWith (lines.headD "") "```" then lines.tail else lines
      let lines :=
        if !lines.isEmpty && pstrip (lines.getLastD "") = "```" then lines.dropLast
        else lines
      pstrip (pJoinNL lines)
    else selector
  if pStartsWith selector "`" && pEndsWith selector "`"
      && selector.data.count '`' = 2 then
    pstrip ⟨(selector.data.drop 1).dropLast⟩
  else selector

/-- `ScrapingAgent._navigate_to_next_page`: probe the LLM for a selector; the
sentinel or an empty selector means no further pages; a `ToolError` from
the click never escapes (not-visible/not-clickable reads as last page, any
other code is logged) — only an LLM failure propagates. -/
def navigateToNextPage (env : AgentEnv) (page : Nat) : Except String Bool :=
  match env.probe page with
  | .error msg => .error msg
  | .ok content =>
      let selector := cleanSelector content
      if selector = "NO_PAGINATION" || selector = "" then .ok false
      else
        match env.click page selector with
        | .ok _ => .ok true
        | .error e =>
            if e.code = .ELEMENT_NOT_VISIBLE || e.code = .ELEMENT_NOT_CLICKABLE then
              .ok false
            else
              .ok false

/-- One entry of `_execute_interactions`: `click`/`fill` failures are caught
(`except ToolError: logger.warning`), `wait` sleeps, `scroll` and unknown
types are skipped — no interaction aborts the job. -/
def runInteraction (env : AgentEnv) (idx : Nat) : Interaction → Except String Unit
  | .click _ =>
      match env.interact idx with
      | .ok _ => .ok Unit.unit
      | .error _ => .ok Unit.unit
  | .fill _ _ =>
      match env.interact idx with
      | .ok _ => .ok Unit.unit
      | .error _ => .ok Unit.unit
  | _ => .ok Unit.unit

/-- `_execute_interactions` over the configured list. -/
def runInteractions (env : AgentEnv) (inters : List Interaction) : Except String Unit :=
  (List.range inters.length).zip inters |>.foldl
    (fun acc (p : Nat × Interaction) =>
      match acc with
      | .error e => .error e
      | .ok _ => runInteraction env p.1 p.2)
    (.ok Unit.unit)

/-- The `while page_count < max_pages` loop of `ScrapingAgent.scrape`
(steps 3a–3e): returns the final `page_count` together with either the
accumulated items or the first escaping failure's message. The structural
`fuel` argument is always `maxPages - pageCount`, so `fuel = 0` is exactly
the loop guard `page_count < max_pages` turning false; the inner pagination
test keeps the literal `pc < maxPages` comparison of the source. -/
def extractLoopAux (env : AgentEnv) (pagination : Bool) (maxPages : Nat) :
    Nat → Nat → List JVal → Nat × Except String (List JVal)
  | 0, pageCount, acc => (pageCount, .ok acc)
  | fuel + 1, pageCount, acc =>
      let pc := pageCount + 1
      match env.getHtml pc with
      | .error e => (pc, .error e.str)
      | .ok _html =>
          match env.extract pc with
          | .error msg => (pc, .error msg)
          | .ok pageData =>
              let acc := if pageData.isEmpty then acc else acc ++ pageData
              if pagination ∧ pc < maxPages then
                match navigateToNextPage env pc with
                | .error msg => (pc, .error msg)
                | .ok hasNext =>
                    if hasNext then extractLoopAux env pagination maxPages fuel pc acc
                    else (pc, .ok acc)
              else (pc, .ok acc)

/-- The extraction loop entered with `page_count = 0` and no items
(fuel `maxPages - 0 = maxPages`). -/
def extractLoop (env : AgentEnv) (pagination : Bool) (maxPages : Nat) :
    Nat × Except String (List JVal) :=
  extractLoopAux env pagination maxPages maxPages 0 []

/-- The payload of a successful job before it is wrapped in the result. -/
structure JobSuccess where
  data : List (String × JVal)
  report : QReport

/-- The body of `ScrapingAgent.scrape` inside its `try:` — navigation, the
pre-interactions, the extraction loop, structuring, and quality scoring;
`.error` is the first exception that escapes a step. -/
def scrapeBody (env : AgentEnv) (cfg : ScrapingCfg) : Except String JobSuccess :=
  match env.nav with
  | .error e => .error e.str
  | .ok _sid =>
      match runInteractions env cfg.interactions with
      | .error msg => .error msg
      | .ok _ =>
          match (extractLoop env cfg.pagination cfg.maxPages).2 with
          | .error msg => .error msg
          | .ok items =>
              let structured := structureData env.now items cfg.schema
              .ok { data := structured, report := generateQualityReport structured }

/-- The terminal result of one job. `quality_report := none` models the empty
`{}` report of the error arm. -/
structure ExtractionRes where
  status : String
  data : List (String × JVal)
  quality_report : Option QReport
  error : Option String := none
  deriving Repr

/-- `ScrapingAgent.scrape`: the `try/except Exception` wrapper — any escaping
failure becomes `{status:"error", data:{}, quality_report:{}, error:str(e)}`. -/
def ScrapingAgent.scrape (env : AgentEnv) (cfg : ScrapingCfg) : ExtractionRes :=
  match scrapeBody env cfg with
  | .ok s =>
      { status := "success", data := s.data, quality_report := some s.report }
  | .error msg =>
      { status := "error", data := [], quality_report := none, error := some msg }

/-! ### Specification-side definitions

The following definitions are not translated from the source: they state, in
the spec's own words, observables against which the source-derived functions
are compared. -/

/-- Count lookup in the missing-fields table, with 0 for an absent path. -/
def cnt : List (String × Nat) → String → Nat
  | [], _ => 0
  | (k, c) :: rest, path => if k = path then c else cnt rest path

mutual

/-- Spec-side: the number of missing occurrences of the dotted field path
`path` inside a value walked with current prefix `pre`. -/
def specOcc (v : JVal) (pre path : String) : Nat :=
  match v with
  | .obj fields => specOccFields fields pre path
  | .arr elems => specOccElems elems pre path
  | _ => 0

/-- Spec-side occurrence count over the entries of a mapping. -/
def specOccFields (fields : List (String × JVal)) (pre path : String) : Nat :=
  match fields with
  | [] => 0
  | (key, value) :: rest =>
      let fp := if pre = "" then key else pre ++ "." ++ key
      (if isMissing value then (if fp = path then 1 else 0)
       else specOcc value fp path) + specOccFields rest pre path

/-- Spec-side occurrence count over the elements of a sequence: the prefix is
unchanged, so the list index never enters the path. -/
def specOccElems (elems : List JVal) (pre path : String) : Nat :=
  match elems with
  | [] => 0
  | e :: rest => specOcc e pre path + specOccElems rest pre path

end

mutual

/-- Spec-side: the total number of missing fields anywhere inside a value. -/
def specTotal (v : JVal) : Nat :=
  match v with
  | .obj fields => specTotalFields fields
  | .arr elems => specTotalElems elems
  | _ => 0

/-- Spec-side total missing count over the entries of a mapping. -/
def specTotalFields (fields : List (String × JVal)) : Nat :=
  match fields with
  | [] => 0
  | (_, value) :: rest =>
      (if isMissing value then 1 else specTotal value) + specTotalFields rest

/-- Spec-side total missing count over the elements of a sequence. -/
def specTotalElems (elems : List JVal) : Nat :=
  match elems with
  | [] => 0
  | e :: rest => specTotal e + specTotalElems rest

end

/-- Spec-side: the number of items of a list that miss the given field path
anywhere in their nested structure (the reading of "how many items were
missing that field" in the claim). -/
def specItemsMissing (items : List JVal) (path : String) : Nat :=
  (items.filter (fun it => 0 < specOcc it "" path)).length

/-- Replay of a whole sequence of `BrowserManager.session` calls (the process
lifetime). -/
def runSessions (st : BrowserState) : List (Option String) → BrowserState
  | [] => st
  | sid :: rest => runSessions (BrowserManager.session st sid).2 rest

/-- The identifiers the fresh supply may still draw are unbound: the freshness
the code obtains from uuid4. -/
def goodState (st : BrowserState) : Prop :=
  ∀ n, st.nextId ≤ n → lookupSession st.sessions (genId n) = none

/-- A caller-supplied identifier never collides with any identifier the fresh
supply can mint (the uuid4 no-collision assumption). -/
def nonMinted (sid : Option String) : Prop :=
  ∀ s, sid = some s → ∀ n, s ≠ genId n

/-! ### Concrete demonstration data used by the witnesses -/

/-- A registered capability whose run always raises the domain error. -/
def boomTool : ToolDef where
  name := "boom"
  description := "always raises a domain ToolError"
  run := fun _ => .error (.toolError { code := .ELEMENT_NOT_FOUND, message := "nope" })

/-- A registered capability whose run always raises an unexpected exception. -/
def crashTool : ToolDef where
  name := "crash"
  description := "always raises an unexpected exception"
  run := fun _ => .error (.other "boom msg")

/-- A two-entry tool registry for concrete calls. -/
def demoTools : List (String × ToolDef) := [("boom", boomTool), ("crash", crashTool)]

/-- A dispatch environment whose parser rejects every line with one detail
entry and whose handler echoes the request id with an empty result. -/
def rejectEnv : DispatchEnv where
  parse := fun _ => .error [("line", "invalid json")]
  handle := fun req => .ok { id := req.id, result := some [] }

/-- A job environment whose initial navigation fails. -/
def envNavFail : AgentEnv where
  nav := .error { code := .NETWORK_ERROR, message := "net down" }
  interact := fun _ => .ok Unit.unit
  getHtml := fun _ => .ok "<html></html>"
  extract := fun _ => .ok []
  probe := fun _ => .ok "NO_PAGINATION"
  click := fun _ _ => .ok Unit.unit
  now := "2024-01-01T00:00:00Z"

/-- A job environment where page 1 extracts an item and the page-2 HTML read
then fails: partial progress that must be discarded. -/
def envMidFail : AgentEnv where
  nav := .ok "sess_demo"
  interact := fun _ => .ok Unit.unit
  getHtml := fun p =>
    if p = 1 then .ok "<p1>"
    else .error { code := .NAVIGATION_TIMEOUT, message := "slow" }
  extract := fun _ => .ok [JVal.obj [("t", .str "x")]]
  probe := fun _ => .ok "a.next"
  click := fun _ _ => .ok Unit.unit
  now := "2024-01-01T00:00:00Z"

/-- A job environment realising the pagination scenario: a clickable next-page
selector on page 1, the sentinel on page 2. -/
def envScenario : AgentEnv where
  nav := .ok "sess_demo"
  interact := fun _ => .ok Unit.unit
  getHtml := fun _ => .ok "<html>"
  extract := fun p => .ok [JVal.obj [("t", .str (toString p))]]
  probe := fun p => if p = 1 then .ok "a.next" else .ok "NO_PAGINATION"
  click := fun _ _ => .ok Unit.unit
  now := "2024-01-01T00:00:00Z"

/-- A paginated two-page job configuration. -/
def cfgPaged : ScrapingCfg where
  url := "https://example.com/"
  schema := [("items", .arr [.obj []])]
  interactions := []
  pagination := true
  maxPages := 2

/-- The pagination-scenario configuration: pagination on, `max_pages = 3`. -/
def cfgScenario : ScrapingCfg where
  url := "https://example.com/"
  schema := [("items", .arr [.obj []])]
  interactions := []
  pagination := true
  maxPages := 3

/-- A structured payload with one complete and one incomplete item. -/
def qrDemo : List (String × JVal) :=
  [("items", .arr [.obj [("a", .null)], .obj [("a", .str "x")]])]

/-- One item whose nested list misses the same field twice: one item, two
missing occurrences of the path `subs.name`. -/
def cex6items : List JVal :=
  [.obj [("subs", .arr [.obj [("name", .null)], .obj [("name", .null)]])]]

/-- A schema with a non-empty array field and a `metadata` section. -/
def schemaDemo : List (String × JVal) :=
  [("produits", .arr [.obj [("nom", .str "string")]]), ("metadata", .obj [])]

end MCPWeb

namespace MCPWeb

/-! ### Claim theorems -/

/-- Claim C2: for every registered capability name and argument mapping,
`ToolService.call` returns a result mapping (it is a total function, so no
exception ever reaches the caller): a domain `ToolError` becomes
`{ok:false}` carrying that error's payload, with the arguments' (truthy)
`session_id` echoed back; any other exception becomes `{ok:false}` with
code `INTERNAL_ERROR` and the exception's message. -/
theorem claim_C2 (tools : List (String × ToolDef)) (clock : CallClock)
    (name : String) (args : List (String × JVal)) (tool : ToolDef)
    (hreg : lookupTool tools name = some tool) :
    (∀ e, tool.run args = .error (.toolError e) →
        (ToolService.call tools clock name args).ok = false ∧
        (ToolService.call tools clock name args).error = some e.toPayload ∧
        (∀ v, alookup args "session_id" = some v → v.truthy = true →
          (ToolService.call tools clock name args).session_id = some v)) ∧
    (∀ m, tool.run args = .error (.other m) →
        (ToolService.call tools clock name args).ok = false ∧
        (ToolService.call tools clock name args).error =
          some { code := ErrCode.INTERNAL_ERROR.value,
                 message := if m = "" then "Internal error" else m,
                 details := [] }) := by
  constructor
  · intro e he
    refine ⟨?_, ?_, ?_⟩
    · simp only [ToolService.call, hreg, he]
      cases h : alookup args "session_id" with
      | none => simp [h]
      | some v => cases hv : v.truthy <;> simp [h, hv]
    · simp only [ToolService.call, hreg, he]
      cases h : alookup args "session_id" with
      | none => simp [h]
      | some v => cases hv : v.truthy <;> simp [h, hv]
    · intro v hv htr
      simp only [ToolService.call, hreg, he]
      simp [hv, htr]
  · intro m hm
    simp only [ToolService.call, hreg, hm]
    exact ⟨trivial, rfl⟩

/-- Witness for C2 at a concrete registry, clock and argument mapping. -/
theorem claim_C2_witness :
    (ToolService.call demoTools ⟨"t0", 5⟩ "boom" [("session_id", .str "s1")]).ok = false ∧
    (ToolService.call demoTools ⟨"t0", 5⟩ "boom" [("session_id", .str "s1")]).error =
      some { code := "ELEMENT_NOT_FOUND", message := "nope", details := [] } ∧
    (ToolService.call demoTools ⟨"t0", 5⟩ "boom" [("session_id", .str "s1")]).session_id =
      some (.str "s1") := by
  have h := claim_C2 demoTools ⟨"t0", 5⟩ "boom" [("session_id", .str "s1")] boomTool rfl
  have h1 := h.1 { code := .ELEMENT_NOT_FOUND, message := "nope" } rfl
  exact ⟨h1.1, h1.2.1, h1.2.2 (.str "s1") rfl rfl⟩

/-- Claim C10 (implicit): on the unexpected-failure path the envelope carries
no `session_id` key at all, even when the arguments included one — the
session-identifier echo only happens for domain failures. -/
theorem claim_C10 (tools : List (String × ToolDef)) (clock : CallClock)
    (name : String) (args : List (String × JVal)) (tool : ToolDef) (m : String)
    (hreg : lookupTool tools name = some tool)
    (hrun : tool.run args = .error (.other m)) :
    (ToolService.call tools clock name args).session_id = none ∧
    (ToolService.call tools clock name args).ok = false ∧
    (ToolService.call tools clock name args).error =
      some { code := ErrCode.INTERNAL_ERROR.value,
             message := if m = "" then "Internal error" else m,
             details := [] } := by
  simp only [ToolService.call, hreg, hrun]
  exact ⟨trivial, trivial, rfl⟩

/-- Witness for C10: the unexpected-failure envelope of a call whose
arguments did carry a truthy `session_id`. -/
theorem claim_C10_witness :
    alookup [("session_id", JVal.str "s1")] "session_id" = some (.str "s1") ∧
    (ToolService.call demoTools ⟨"t0", 5⟩ "crash" [("session_id", .str "s1")]).session_id =
      none := by
  refine ⟨rfl, ?_⟩
  exact (claim_C10 demoTools ⟨"t0", 5⟩ "crash" [("session_id", .str "s1")]
    crashTool "boom msg" rfl rfl).1

/-- Claim C7: a line that fails to parse as a valid request yields a response
with null id whose error payload carries the parse details, and the read
loop still emits one response per surrounding non-blank line — a malformed
line neither terminates the loop nor suppresses later responses. -/
theorem claim_C7 (env : DispatchEnv) (line : String) (errs : List (String × String))
    (pre post : List String)
    (hline : pstrip line ≠ "")
    (hparse : env.parse (pstrip line) = .error errs) :
    dispatch env (pstrip line) =
      { id := JVal.null, result := none,
        error := some { code := ErrCode.INTERNAL_ERROR.value,
                        message := "Invalid request payload", details := errs } } ∧
    serveLines env (pre ++ line :: post) =
      serveLines env pre ++ dispatch env (pstrip line) :: serveLines env post := by
  constructor
  · unfold dispatch
    rw [hparse]
  · induction pre with
    | nil => simp [serveLines, hline]
    | cons p ps ih =>
        by_cases hp : pstrip p = "" <;> simp [serveLines, hp, ih]

/-- Witness for C7: a dispatcher whose parser rejects every line, run over a
malformed line surrounded by two other lines. -/
theorem claim_C7_witness :
    dispatch rejectEnv (pstrip "nonsense") =
      { id := JVal.null, result := none,
        error := some { code := ErrCode.INTERNAL_ERROR.value,
                        message := "Invalid request payload",
                        details := [("line", "invalid json")] } } ∧
    serveLines rejectEnv (["x"] ++ "nonsense" :: ["y"]) =
      serveLines rejectEnv ["x"] ++
        dispatch rejectEnv (pstrip "nonsense") :: serveLines rejectEnv ["y"] := by
  exact claim_C7 rejectEnv "nonsense" [("line", "invalid json")] ["x"] ["y"]
    (by decide) rfl

/-- Claim C1: any failure escaping a step of the job — in particular a failed
initial navigation — makes `scrape` return status `"error"` with empty
data, empty quality report and the failure's message; accumulated partial
items are only ever reported when the whole body succeeded. -/
theorem claim_C1 (env : AgentEnv) (cfg : ScrapingCfg) :
    (∀ e, env.nav = .error e →
        ScrapingAgent.scrape env cfg =
          { status := "error", data := [], quality_report := none,
            error := some e.str }) ∧
    (∀ msg, scrapeBody env cfg = .error msg →
        ScrapingAgent.scrape env cfg =
          { status := "error", data := [], quality_report := none,
            error := some msg }) ∧
    (∀ s, scrapeBody env cfg = .ok s →
        ScrapingAgent.scrape env cfg =
          { status := "success", data := s.data, quality_report := some s.report,
            error := none }) := by
  refine ⟨?_, ?_, ?_⟩
  · intro e he
    have hb : scrapeBody env cfg = .error e.str := by
      unfold scrapeBody; rw [he]
    unfold ScrapingAgent.scrape; rw [hb]
  · intro msg h
    unfold ScrapingAgent.scrape; rw [h]
  · intro s h
    unfold ScrapingAgent.scrape; rw [h]

/-- Witness for C1: the navigation-failure job and the mid-loop failure job
(one item already accumulated on page 1) both collapse to the empty error
result carrying the failure message. -/
theorem claim_C1_witness :
    scrapeBody envMidFail cfgPaged = .error "NAVIGATION_TIMEOUT: slow" ∧
    ScrapingAgent.scrape envMidFail cfgPaged =
      { status := "error", data := [], quality_report := none,
        error := some "NAVIGATION_TIMEOUT: slow" } ∧
    ScrapingAgent.scrape envNavFail cfgPaged =
      { status := "error", data := [], quality_report := none,
        error := some "NETWORK_ERROR: net down" } := by
  have hb : scrapeBody envMidFail cfgPaged = .error "NAVIGATION_TIMEOUT: slow" := by rfl
  exact ⟨hb, (claim_C1 envMidFail cfgPaged).2.1 _ hb,
    (claim_C1 envNavFail cfgPaged).1 { code := .NETWORK_ERROR, message := "net down" } rfl⟩

/-- The loop counter grows by at most one per unit of fuel. -/
theorem extractLoopAux_fst_le (env : AgentEnv) (p : Bool) (mp : Nat) :
    ∀ fuel pc acc, (extractLoopAux env p mp fuel pc acc).1 ≤ pc + fuel := by
  intro fuel
  induction fuel with
  | zero => intro pc acc; simp [extractLoopAux]
  | succ n ih =>
      intro pc acc
      simp only [extractLoopAux]
      cases env.getHtml (pc + 1) with
      | error e => simp
      | ok h =>
          cases env.extract (pc + 1) with
          | error m => simp
          | ok pd =>
              dsimp only
              split
              · cases navigateToNextPage env (pc + 1) with
                | error m => simp
                | ok hasNext =>
                    cases hasNext with
                    | true =>
                        simpa using le_trans (ih (pc + 1) _) (by omega)
                    | false => simp
              · simp

/-- Claim C3: the extraction loop runs at most `max_pages` iterations, so the
number of processed pages is between 0 and `max_pages`; with pagination
disabled (and a positive page budget) exactly one extraction pass runs. -/
theorem claim_C3 (env : AgentEnv) (pagination : Bool) (maxPages : Nat) :
    (extractLoop env pagination maxPages).1 ≤ maxPages ∧
    (pagination = false → 1 ≤ maxPages →
      (extractLoop env pagination maxPages).1 = 1) := by
  constructor
  · simpa using extractLoopAux_fst_le env pagination maxPages maxPages 0 []
  · intro hpag hmp
    subst hpag
    obtain ⟨k, rfl⟩ : ∃ k, maxPages = k + 1 := ⟨maxPages - 1, by omega⟩
    simp only [extractLoop, extractLoopAux]
    cases env.getHtml 1 with
    | error e => rfl
    | ok h =>
        cases env.extract 1 with
        | error m => rfl
        | ok pd => simp

/-- Witness for C3: bound and the single-pass case at a concrete environment. -/
theorem claim_C3_witness :
    (extractLoop envScenario false 1).1 ≤ 1 ∧
    (extractLoop envScenario false 1).1 = 1 := by
  exact ⟨(claim_C3 envScenario false 1).1,
    (claim_C3 envScenario false 1).2 rfl (by decide)⟩

/-- Claim C4: pagination is never fatal — a sentinel or empty selector from
the probe stops the loop with `false`, and any domain `ToolError` from the
click (not-visible/not-clickable included) also stops it with `false`;
in the scenario with pagination on, `max_pages = 3` and the sentinel on
page 2, exactly 2 pages are extracted and the job status is `"success"`. -/
theorem claim_C4 (env : AgentEnv) (page : Nat) :
    (∀ content, env.probe page = .ok content →
        (cleanSelector content = "NO_PAGINATION" ∨ cleanSelector content = "") →
        navigateToNextPage env page = .ok false) ∧
    (∀ content e, env.probe page = .ok content →
        cleanSelector content ≠ "NO_PAGINATION" → cleanSelector content ≠ "" →
        env.click page (cleanSelector content) = .error e →
        navigateToNextPage env page = .ok false) ∧
    (∀ (cfg : ScrapingCfg) (sid sel h1 h2 : String) (i1 i2 : List JVal),
        env.nav = .ok sid → cfg.interactions = [] →
        cfg.pagination = true → cfg.maxPages = 3 →
        env.getHtml 1 = .ok h1 → env.extract 1 = .ok i1 →
        env.probe 1 = .ok sel → cleanSelector sel ≠ "NO_PAGINATION" →
        cleanSelector sel ≠ "" → env.click 1 (cleanSelector sel) = .ok Unit.unit →
        env.getHtml 2 = .ok h2 → env.extract 2 = .ok i2 →
        env.probe 2 = .ok "NO_PAGINATION" →
        (extractLoop env true 3).1 = 2 ∧
        (ScrapingAgent.scrape env cfg).status = "success") := by
  refine ⟨?_, ?_, ?_⟩
  · intro content hp hsent
    unfold navigateToNextPage
    rw [hp]
    rcases hsent with h | h <;> simp [h]
  · intro content e hp hs1 hs2 hclick
    unfold navigateToNextPage
    rw [hp]
    simp [hs1, hs2, hclick]
  · intro cfg sid sel h1 h2 i1 i2 hnav hint hpag hmax hh1 he1 hp1 hs1 hs2 hc1 hh2 he2 hp2
    have hnext1 : navigateToNextPage env 1 = .ok true := by
      unfold navigateToNextPage
      rw [hp1]
      simp [hs1, hs2, hc1]
    have hnext2 : navigateToNextPage env 2 = .ok false := by
      unfold navigateToNextPage
      rw [hp2]
      rfl
    have hloop : extractLoop env true 3 =
        (2, .ok (if i2.isEmpty then (if i1.isEmpty then [] else i1)
                 else (if i1.isEmpty then [] else i1) ++ i2)) := by
      unfold extractLoop
      simp only [extractLoopAux]
      norm_num
      rw [hh1, he1]
      simp only [hnext1]
      rw [hh2, he2]
      simp [hnext2]
    refine ⟨by rw [hloop], ?_⟩
    have hbody : ∃ s, scrapeBody env cfg = .ok s := by
      unfold scrapeBody
      rw [hnav, hint, hpag, hmax]
      simp [runInteractions, hloop]
    obtain ⟨s, hs⟩ := hbody
    unfold ScrapingAgent.scrape
    rw [hs]

/-- Witness for C4 at the concrete scenario environment: sentinel handling,
click-failure tolerance, and the two-page success run. -/
theorem claim_C4_witness :
    navigateToNextPage envScenario 2 = .ok false ∧
    (extractLoop envScenario true 3).1 = 2 ∧
    (ScrapingAgent.scrape envScenario cfgScenario).status = "success" := by
  have h := claim_C4 envScenario 2
  have hsc := (claim_C4 envScenario 1).2.2 cfgScenario "sess_demo" "a.next" "<html>"
    "<html>" [JVal.obj [("t", .str "1")]] [JVal.obj [("t", .str "2")]]
    rfl rfl rfl rfl rfl rfl rfl (by decide) (by decide) rfl rfl rfl rfl
  exact ⟨h.1 "NO_PAGINATION" rfl (by left; decide), hsc.1, hsc.2⟩

end MCPWeb

namespace MCPWeb

/-- The per-item fold of the quality report gains at most one complete item
per item. -/
theorem analyzeItems_foldl_le (items : List JVal) :
    ∀ c mf, (items.foldl
      (fun acc item =>
        let r := checkItemCompleteness item acc.2
        (if r.1 then acc.1 + 1 else acc.1, r.2)) (c, mf)).1 ≤ c + items.length := by
  induction items with
  | nil => intro c mf; simp
  | cons it rest ih =>
      intro c mf
      simp only [List.foldl_cons, List.length_cons]
      refine le_trans (ih _ _) ?_
      by_cases h : (checkItemCompleteness it mf).1 <;> (simp [h]; try omega)

/-- `complete_items` never exceeds `total_items`. -/
theorem analyzeItems_fst_le (items : List JVal) :
    (analyzeItems items).1 ≤ items.length := by
  simpa using analyzeItems_foldl_le items 0 []

/-- Round-half-even of a non-negative rational is non-negative. -/
theorem roundHalfEven_nonneg (q : ℚ) (hq : 0 ≤ q) : 0 ≤ roundHalfEven q := by
  have h0 : (0 : ℤ) ≤ ⌊q⌋ := Int.floor_nonneg.mpr hq
  unfold roundHalfEven
  dsimp only
  split_ifs <;> omega

/-- Round-half-even never overshoots an integer upper bound. -/
theorem roundHalfEven_le (q : ℚ) (n : ℤ) (hq : q ≤ (n : ℚ)) :
    roundHalfEven q ≤ n := by
  have hfl : ⌊q⌋ ≤ n := by
    have := Int.floor_le_floor hq
    simpa using this
  have hflq : (⌊q⌋ : ℚ) ≤ q := Int.floor_le q
  unfold roundHalfEven
  dsimp only
  split_ifs with h1 h2 h3
  · exact hfl
  · -- strictly past the midpoint: the floor is strictly below `n`
    have hlt : (⌊q⌋ : ℚ) < (n : ℚ) := by linarith
    have : ⌊q⌋ < n := by exact_mod_cast hlt
    omega
  · exact hfl
  · -- exact tie on an odd floor: `q = ⌊q⌋ + 1/2 ≤ n` forces `⌊q⌋ < n`
    have htie : q - (⌊q⌋ : ℚ) = 1/2 := le_antisymm (not_lt.mp h2) (not_lt.mp h1)
    have hlt : (⌊q⌋ : ℚ) < (n : ℚ) := by linarith
    have : ⌊q⌋ < n := by exact_mod_cast hlt
    omega

/-- Claim C8: every quality report's completion rate equals
`complete_items / total_items` rounded to three decimals and lies in
`[0, 1]`; an empty item list produces the all-zero report. -/
theorem claim_C8 (structured : List (String × JVal)) :
    (generateQualityReport structured).completion_rate =
      round3 (((generateQualityReport structured).complete_items : ℚ) /
        ((generateQualityReport structured).total_items : ℚ)) ∧
    0 ≤ (generateQualityReport structured).completion_rate ∧
    (generateQualityReport structured).completion_rate ≤ 1 ∧
    (firstListValue structured = [] →
      generateQualityReport structured =
        { total_items := 0, complete_items := 0, completion_rate := 0,
          missing_fields := [], errors := [] }) := by
  by_cases hlen : (firstListValue structured).length = 0
  · have hrep : generateQualityReport structured =
        { total_items := 0, complete_items := 0, completion_rate := 0,
          missing_fields := [], errors := [] } := by
      unfold generateQualityReport
      rw [if_pos hlen]
    refine ⟨?_, ?_, ?_, fun _ => hrep⟩
    · rw [hrep]
      norm_num [round3, roundHalfEven]
    · rw [hrep]
    · rw [hrep]; norm_num
  · have hrep : generateQualityReport structured =
        { total_items := (firstListValue structured).length,
          complete_items := (analyzeItems (firstListValue structured)).1,
          completion_rate := round3 (((analyzeItems (firstListValue structured)).1 : ℚ) /
            ((firstListValue structured).length : ℚ)),
          missing_fields := (analyzeItems (firstListValue structured)).2.map
            (fun kv => kv.1 ++ ": " ++ toString kv.2 ++ " items"),
          errors := [] } := by
      unfold generateQualityReport
      rw [if_neg hlen]
    have hc : (analyzeItems (firstListValue structured)).1 ≤
        (firstListValue structured).length := analyzeItems_fst_le _
    have htpos : (0 : ℚ) < ((firstListValue structured).length : ℚ) := by
      exact_mod_cast Nat.pos_of_ne_zero hlen
    have hq0 : (0 : ℚ) ≤ ((analyzeItems (firstListValue structured)).1 : ℚ) /
        ((firstListValue structured).length : ℚ) :=
      div_nonneg (by positivity) (le_of_lt htpos)
    have hq1 : ((analyzeItems (firstListValue structured)).1 : ℚ) /
        ((firstListValue structured).length : ℚ) ≤ 1 := by
      rw [div_le_one htpos]
      exact_mod_cast hc
    refine ⟨?_, ?_, ?_, ?_⟩
    · rw [hrep]
    · rw [hrep]
      unfold round3
      have := roundHalfEven_nonneg (((analyzeItems (firstListValue structured)).1 : ℚ) /
        ((firstListValue structured).length : ℚ) * 1000) (by positivity)
      positivity
    · rw [hrep]
      unfold round3
      have hb := roundHalfEven_le (((analyzeItems (firstListValue structured)).1 : ℚ) /
        ((firstListValue structured).length : ℚ) * 1000) 1000 (by nlinarith)
      rw [div_le_one (by norm_num)]
      exact_mod_cast hb
    · intro h
      rw [h] at hlen
      simp at hlen

/-- Witness for C8: bounds at a two-item payload with one incomplete item, and
the all-zero report for a payload with no list value. -/
theorem claim_C8_witness :
    0 ≤ (generateQualityReport qrDemo).completion_rate ∧
    (generateQualityReport qrDemo).completion_rate ≤ 1 ∧
    generateQualityReport [("x", JVal.num 1)] =
      { total_items := 0, complete_items := 0, completion_rate := 0,
        missing_fields := [], errors := [] } := by
  exact ⟨(claim_C8 qrDemo).2.1, (claim_C8 qrDemo).2.2.1,
    (claim_C8 [("x", JVal.num 1)]).2.2.2 rfl⟩

end MCPWeb

namespace MCPWeb

/-- Overwriting dict assignment then reading the same key gives the value. -/
theorem alookup_aset_self (d : List (String × JVal)) (k : String) (v : JVal) :
    alookup (aset d k v) k = some v := by
  induction d with
  | nil => simp [aset, alookup]
  | cons p rest ih =>
      by_cases h : p.1 = k
      · simp [aset, alookup, h]
      · simp [aset, alookup, h, ih]

/-- Overwriting dict assignment leaves reads of other keys unchanged. -/
theorem alookup_aset_ne (d : List (String × JVal)) (k : String) (v : JVal)
    (k2 : String) (h : k2 ≠ k) :
    alookup (aset d k v) k2 = alookup d k2 := by
  have hne : ¬(k = k2) := fun hk => h hk.symm
  induction d with
  | nil => simp [aset, alookup, hne]
  | cons p rest ih =>
      obtain ⟨pk, pv⟩ := p
      by_cases hp : pk = k
      · subst hp
        simp [aset, alookup, hne]
      · simp [aset, alookup, hp, ih]

/-- Counterexample to claim C9 as stated: in the schema
`{"products": []}` the key `products` declares a list shape, yet the
structuring step files the extracted items under the default key
`items`, not under `products` — the source requires the declared list to
be non-empty. -/
theorem claim_C9_counterexample :
    findArrayField [("products", JVal.arr [])] = none ∧
    structureData "t0" [JVal.obj [("a", JVal.str "x")]] [("products", JVal.arr [])] =
      [("items", JVal.arr [JVal.obj [("a", JVal.str "x")]])] ∧
    alookup (structureData "t0" [JVal.obj [("a", JVal.str "x")]]
      [("products", JVal.arr [])]) "products" = none := by
  exact ⟨rfl, rfl, rfl⟩

/-- Claim C9 (amended: the designated array field is the first schema key
whose declared shape is a *non-empty* list): items are placed under that
key, or under the default key `items` when no such field exists, and a
declared `metadata` section adds the timestamp/count object. -/
theorem claim_C9 (now : String) (items : List JVal) (schema : List (String × JVal)) :
    (∀ k, findArrayField schema = some k → alookup schema "metadata" = none →
        structureData now items schema = [(k, JVal.arr items)]) ∧
    (findArrayField schema = none → alookup schema "metadata" = none →
        structureData now items schema = [("items", JVal.arr items)]) ∧
    (∀ m, alookup schema "metadata" = some m →
        alookup (structureData now items schema) "metadata" =
          some (.obj [("date_extraction", .str now),
                      ("nb_resultats", .num items.length)])) ∧
    (∀ k, findArrayField schema = some k → k ≠ "metadata" →
        alookup (structureData now items schema) k = some (JVal.arr items)) := by
  refine ⟨?_, ?_, ?_, ?_⟩
  · intro k hfind hmeta
    unfold structureData
    rw [hfind, hmeta]
    rfl
  · intro hfind hmeta
    unfold structureData
    rw [hfind, hmeta]
    rfl
  · intro m hmeta
    unfold structureData
    rw [hmeta]
    cases hfind : findArrayField schema with
    | none => simpa using alookup_aset_self _ _ _
    | some k => simpa using alookup_aset_self _ _ _
  · intro k hfind hk
    unfold structureData
    rw [hfind]
    cases hmeta : alookup schema "metadata" with
    | none => simp [alookup]
    | some m =>
        simp only [Option.isSome_some, if_pos]
        rw [alookup_aset_ne _ _ _ _ hk]
        simp [alookup]

/-- Witness for the amended C9 at a schema with array field `produits` and a
`metadata` section. -/
theorem claim_C9_witness :
    alookup (structureData "T0" [JVal.obj [("nom", JVal.str "a")]] schemaDemo)
      "produits" = some (JVal.arr [JVal.obj [("nom", JVal.str "a")]]) ∧
    alookup (structureData "T0" [JVal.obj [("nom", JVal.str "a")]] schemaDemo)
      "metadata" =
      some (.obj [("date_extraction", .str "T0"), ("nb_resultats", .num 1)]) := by
  refine ⟨?_, ?_⟩
  · exact (claim_C9 "T0" [JVal.obj [("nom", JVal.str "a")]] schemaDemo).2.2.2
      "produits" rfl (by decide)
  · exact (claim_C9 "T0" [JVal.obj [("nom", JVal.str "a")]] schemaDemo).2.2.1
      (.obj []) rfl

end MCPWeb

namespace MCPWeb

/-- Generated session identifiers have length `5 + n`. -/
theorem genId_length (n : Nat) : (genId n).length = 5 + n := by
  simp [genId, String.length_append, String.length, List.length_replicate]
  omega

/-- The fresh-identifier supply never repeats a draw. -/
theorem genId_inj (n m : Nat) (h : genId n = genId m) : n = m := by
  have := congrArg String.length h
  rw [genId_length, genId_length] at this
  omega

/-- Storing a session then reading the same key gives the stored page. -/
theorem lookupSession_store_self (d : List (String × Nat)) (k : String) (p : Nat) :
    lookupSession (storeSession d k p) k = some p := by
  induction d with
  | nil => simp [storeSession, lookupSession]
  | cons q rest ih =>
      obtain ⟨qk, qp⟩ := q
      by_cases h : qk = k
      · simp [storeSession, lookupSession, h]
      · simp [storeSession, lookupSession, h, ih]

/-- Storing a session leaves reads of other keys unchanged. -/
theorem lookupSession_store_ne (d : List (String × Nat)) (k : String) (p : Nat)
    (k2 : String) (h : k2 ≠ k) :
    lookupSession (storeSession d k p) k2 = lookupSession d k2 := by
  have hne : ¬(k = k2) := fun hk => h hk.symm
  induction d with
  | nil => simp [storeSession, lookupSession, hne]
  | cons q rest ih =>
      obtain ⟨qk, qp⟩ := q
      by_cases hq : qk = k
      · subst hq
        simp [storeSession, lookupSession, hne]
      · simp [storeSession, lookupSession, hq, ih]

/-- One `session` call never remaps a stored identifier and keeps the fresh
supply unbound, provided the supplied identifier is not a mintable one. -/
theorem session_preserves (st : BrowserState) (sid : Option String)
    (hg : goodState st) (hm : nonMinted sid) :
    (∀ s p, lookupSession st.sessions s = some p →
        lookupSession (BrowserManager.session st sid).2.sessions s = some p) ∧
    goodState (BrowserManager.session st sid).2 := by
  cases sid with
  | none =>
      have hsess : BrowserManager.session st none =
          ((genId st.nextId, st.nextPage),
            { sessions := storeSession st.sessions (genId st.nextId) st.nextPage,
              nextPage := st.nextPage + 1, nextId := st.nextId + 1 }) := rfl
      rw [hsess]
      constructor
      · intro s p hp
        have hne : s ≠ genId st.nextId := by
          intro he
          rw [he, hg st.nextId le_rfl] at hp
          exact Option.noConfusion hp
        simpa [lookupSession_store_ne _ _ _ _ hne] using hp
      · intro n hn
        simp only at hn ⊢
        have hne : genId n ≠ genId st.nextId := by
          intro he
          have := genId_inj n st.nextId he
          omega
        rw [lookupSession_store_ne _ _ _ _ hne]
        exact hg n (by omega)
  | some s =>
      by_cases hs : s = ""
      · subst hs
        have hsess : BrowserManager.session st (some "") =
            ((genId st.nextId, st.nextPage),
              { sessions := storeSession st.sessions (genId st.nextId) st.nextPage,
                nextPage := st.nextPage + 1, nextId := st.nextId + 1 }) := rfl
        rw [hsess]
        constructor
        · intro s2 p hp
          have hne : s2 ≠ genId st.nextId := by
            intro he
            rw [he, hg st.nextId le_rfl] at hp
            exact Option.noConfusion hp
          simpa [lookupSession_store_ne _ _ _ _ hne] using hp
        · intro n hn
          simp only at hn ⊢
          have hne : genId n ≠ genId st.nextId := by
            intro he
            have := genId_inj n st.nextId he
            omega
          rw [lookupSession_store_ne _ _ _ _ hne]
          exact hg n (by omega)
      · cases hk : lookupSession st.sessions s with
        | some page =>
            have hsess : BrowserManager.session st (some s) = ((s, page), st) := by
              simp only [BrowserManager.session, if_neg hs]
              rw [hk]
            rw [hsess]
            exact ⟨fun s2 p hp => hp, hg⟩
        | none =>
            have hsess : BrowserManager.session st (some s) =
                ((s, st.nextPage),
                  { sessions := storeSession st.sessions s st.nextPage,
                    nextPage := st.nextPage + 1, nextId := st.nextId }) := by
              simp only [BrowserManager.session, if_neg hs]
              rw [hk]
            rw [hsess]
            constructor
            · intro s2 p hp
              have hne : s2 ≠ s := by
                intro he
                rw [he, hk] at hp
                exact Option.noConfusion hp
              simpa [lookupSession_store_ne _ _ _ _ hne] using hp
            · intro n hn
              simp only at hn ⊢
              have hne : genId n ≠ s := fun he => hm s rfl n he.symm
              rw [lookupSession_store_ne _ _ _ _ hne]
              exact hg n hn

/-- Across any sequence of `session` calls whose supplied identifiers avoid
the mintable names, a stored binding survives unchanged. -/
theorem runSessions_preserves (calls : List (Option String)) :
    ∀ st, goodState st → (∀ c ∈ calls, nonMinted c) →
      ∀ s p, lookupSession st.sessions s = some p →
        lookupSession (runSessions st calls).sessions s = some p := by
  induction calls with
  | nil => intro st _ _ s p hp; exact hp
  | cons c rest ih =>
      intro st hg hcalls s p hp
      have hpre := session_preserves st c hg (hcalls c (List.mem_cons_self c rest))
      exact ih (BrowserManager.session st c).2 hpre.2
        (fun d hd => hcalls d (List.mem_cons_of_mem c hd)) s p (hpre.1 s p hp)

/-- Counterexample to claim C5 as stated: a non-empty *unknown* identifier is
kept verbatim (`session_id or f"sess_..."`), so no fresh identifier is
minted on that path — the returned id is the caller's `"abc"`, not the
supply's next draw `"sess_"`. -/
theorem claim_C5_counterexample :
    (BrowserManager.session ⟨[], 0, 0⟩ (some "abc")).1 = ("abc", 0) ∧
    genId 0 = "sess_" ∧
    ("abc" : String) ≠ "sess_" := by
  exact ⟨rfl, rfl, by decide⟩

/-- Claim C5 (amended: a known non-empty identifier returns its stored page
handle unchanged; a non-empty but unknown identifier gets a fresh page
stored under the *supplied* identifier; only an absent or empty identifier
gets a freshly minted one; stored bindings are never remapped across the
process lifetime, under the uuid no-collision assumption). -/
theorem claim_C5 (st : BrowserState) (sid : Option String) :
    (∀ s p, sid = some s → s ≠ "" → lookupSession st.sessions s = some p →
        BrowserManager.session st sid = ((s, p), st)) ∧
    (∀ s, sid = some s → s ≠ "" → lookupSession st.sessions s = none →
        (BrowserManager.session st sid).1 = (s, st.nextPage) ∧
        lookupSession (BrowserManager.session st sid).2.sessions s =
          some st.nextPage) ∧
    ((sid = none ∨ sid = some "") →
        (BrowserManager.session st sid).1 = (genId st.nextId, st.nextPage) ∧
        lookupSession (BrowserManager.session st sid).2.sessions
          (genId st.nextId) = some st.nextPage) ∧
    (goodState st → nonMinted sid →
        (∀ s p, lookupSession st.sessions s = some p →
            lookupSession (BrowserManager.session st sid).2.sessions s = some p) ∧
        goodState (BrowserManager.session st sid).2) ∧
    (∀ calls s p, goodState st → (∀ c ∈ calls, nonMinted c) →
        lookupSession st.sessions s = some p →
        lookupSession (runSessions st calls).sessions s = some p) := by
  refine ⟨?_, ?_, ?_, ?_, ?_⟩
  · intro s p hsid hne hk
    subst hsid
    simp only [BrowserManager.session, if_neg hne]
    rw [hk]
  · intro s hsid hne hk
    subst hsid
    simp only [BrowserManager.session, if_neg hne]
    rw [hk]
    exact ⟨rfl, lookupSession_store_self _ _ _⟩
  · intro hsid
    rcases hsid with h | h <;> subst h
    · exact ⟨rfl, lookupSession_store_self _ _ _⟩
    · simp only [BrowserManager.session, if_pos rfl]
      exact ⟨rfl, lookupSession_store_self _ _ _⟩
  · intro hg hm
    exact session_preserves st sid hg hm
  · intro calls s p hg hcalls hp
    exact runSessions_preserves calls st hg hcalls s p hp

/-- Witness for the amended C5: reuse of a known identifier at a concrete
state, and a freshly minted identifier when none is supplied. -/
theorem claim_C5_witness :
    BrowserManager.session ⟨[("s1", 7)], 1, 1⟩ (some "s1") =
      (("s1", 7), ⟨[("s1", 7)], 1, 1⟩) ∧
    (BrowserManager.session ⟨[], 0, 0⟩ none).1 = (genId 0, 0) := by
  exact ⟨(claim_C5 ⟨[("s1", 7)], 1, 1⟩ (some "s1")).1 "s1" 7 rfl (by decide) rfl,
    ((claim_C5 ⟨[], 0, 0⟩ none).2.2.1 (Or.inl rfl)).1⟩

end MCPWeb

namespace MCPWeb

/-- Bumping a path adds exactly one to that path's count and nothing to any
other count. -/
theorem cnt_bump (mf : List (String × Nat)) (p2 path : String) :
    cnt (bump mf p2) path = cnt mf path + (if p2 = path then 1 else 0) := by
  induction mf with
  | nil => by_cases h : p2 = path <;> simp [bump, cnt, h]
  | cons kv rest ih =>
      obtain ⟨k, c⟩ := kv
      by_cases hk : k = p2
      · subst hk
        by_cases hp : k = path <;> simp [bump, cnt, hp]
      · by_cases hp : k = path
        · subst hp
          have hne : ¬(p2 = k) := fun h => hk h.symm
          simp [bump, cnt, hk, hne]
        · simp [bump, cnt, hk, hp, ih]

/-- One-step unfolding of `checkFields` on a cons cell. -/
theorem checkFields_cons (key : String) (value : JVal) (rest : List (String × JVal))
    (pre : String) (st : Bool × List (String × Nat)) :
    checkFields ((key, value) :: rest) pre st =
      checkFields rest pre
        (if isMissing value then
          (false, bump st.2 (if pre = "" then key else pre ++ "." ++ key))
         else
          match value with
          | .obj fs => checkFields fs (if pre = "" then key else pre ++ "." ++ key) st
          | .arr es => checkElems es (if pre = "" then key else pre ++ "." ++ key) st
          | _ => st) := by
  conv_lhs => rw [checkFields.eq_def]

/-- One-step unfolding of `checkElems` on a cons cell. -/
theorem checkElems_cons (e : JVal) (rest : List JVal) (pre : String)
    (st : Bool × List (String × Nat)) :
    checkElems (e :: rest) pre st = checkElems rest pre (checkNested e pre st) := rfl

/-- One-step unfolding of `specOccFields` on a cons cell. -/
theorem specOccFields_cons (key : String) (value : JVal)
    (rest : List (String × JVal)) (pre path : String) :
    specOccFields ((key, value) :: rest) pre path =
      (if isMissing value then
        (if (if pre = "" then key else pre ++ "." ++ key) = path then 1 else 0)
       else specOcc value (if pre = "" then key else pre ++ "." ++ key) path) +
      specOccFields rest pre path := rfl

mutual

/-- Walking a value adds, to each path's count, exactly the number of missing
occurrences of that path inside the value. -/
theorem cnt_nested (v : JVal) (pre path : String) (b : Bool)
    (mf : List (String × Nat)) :
    cnt ((checkNested v pre (b, mf)).2) path = cnt mf path + specOcc v pre path := by
  cases v with
  | obj fields => simpa [checkNested, specOcc] using cnt_fields fields pre path b mf
  | arr elems => simpa [checkNested, specOcc] using cnt_elems elems pre path b mf
  | null => simp [checkNested, specOcc]
  | str s => simp [checkNested, specOcc]
  | num n => simp [checkNested, specOcc]
  | bool c => simp [checkNested, specOcc]

/-- The mapping branch of `cnt_nested`. -/
theorem cnt_fields (fields : List (String × JVal)) (pre path : String) (b : Bool)
    (mf : List (String × Nat)) :
    cnt ((checkFields fields pre (b, mf)).2) path =
      cnt mf path + specOccFields fields pre path := by
  cases fields with
  | nil => simp [checkFields, specOccFields]
  | cons kv rest =>
      obtain ⟨key, value⟩ := kv
      rw [checkFields_cons, specOccFields_cons]
      by_cases hmiss : isMissing value
      · rw [if_pos hmiss, if_pos hmiss]
        have h1 := cnt_fields rest pre path false
          (bump mf (if pre = "" then key else pre ++ "." ++ key))
        rw [h1, cnt_bump]
        omega
      · rw [if_neg hmiss, if_neg hmiss]
        cases value with
        | obj fs =>
            dsimp only
            have h2 := cnt_fields fs (if pre = "" then key else pre ++ "." ++ key)
              path b mf
            have h1 := cnt_fields rest pre path
              (checkFields fs (if pre = "" then key else pre ++ "." ++ key) (b, mf)).1
              (checkFields fs (if pre = "" then key else pre ++ "." ++ key) (b, mf)).2
            simp only [Prod.mk.eta] at h1
            rw [h1, h2]
            have hocc : specOcc (JVal.obj fs)
                (if pre = "" then key else pre ++ "." ++ key) path =
              specOccFields fs (if pre = "" then key else pre ++ "." ++ key) path := rfl
            rw [hocc]
            omega
        | arr es =>
            dsimp only
            have h2 := cnt_elems es (if pre = "" then key else pre ++ "." ++ key)
              path b mf
            have h1 := cnt_fields rest pre path
              (checkElems es (if pre = "" then key else pre ++ "." ++ key) (b, mf)).1
              (checkElems es (if pre = "" then key else pre ++ "." ++ key) (b, mf)).2
            simp only [Prod.mk.eta] at h1
            rw [h1, h2]
            have hocc : specOcc (JVal.arr es)
                (if pre = "" then key else pre ++ "." ++ key) path =
              specOccElems es (if pre = "" then key else pre ++ "." ++ key) path := rfl
            rw [hocc]
            omega
        | null => simp [isMissing] at hmiss
        | str s =>
            dsimp only
            have h1 := cnt_fields rest pre path b mf
            rw [h1]
            have hocc : specOcc (JVal.str s)
                (if pre = "" then key else pre ++ "." ++ key) path = 0 := rfl
            rw [hocc]
            omega
        | num n =>
            dsimp only
            have h1 := cnt_fields rest pre path b mf
            rw [h1]
            have hocc : specOcc (JVal.num n)
                (if pre = "" then key else pre ++ "." ++ key) path = 0 := rfl
            rw [hocc]
            omega
        | bool c =>
            dsimp only
            have h1 := cnt_fields rest pre path b mf
            rw [h1]
            have hocc : specOcc (JVal.bool c)
                (if pre = "" then key else pre ++ "." ++ key) path = 0 := rfl
            rw [hocc]
            omega

/-- The sequence branch of `cnt_nested`. -/
theorem cnt_elems (elems : List JVal) (pre path : String) (b : Bool)
    (mf : List (String × Nat)) :
    cnt ((checkElems elems pre (b, mf)).2) path =
      cnt mf path + specOccElems elems pre path := by
  cases elems with
  | nil => simp [checkElems, specOccElems]
  | cons e rest =>
      rw [checkElems_cons]
      simp only [specOccElems]
      have h2 := cnt_nested e pre path b mf
      have h1 := cnt_elems rest pre path
        (checkNested e pre (b, mf)).1 (checkNested e pre (b, mf)).2
      simp only [Prod.mk.eta] at h1
      rw [h1, h2]
      omega

end

end MCPWeb

namespace MCPWeb

/-- One-step unfolding of `specTotalFields` on a cons cell. -/
theorem specTotalFields_cons (key : String) (value : JVal)
    (rest : List (String × JVal)) :
    specTotalFields ((key, value) :: rest) =
      (if isMissing value then 1 else specTotal value) + specTotalFields rest := rfl

/-- One-step unfolding of `specTotalElems` on a cons cell. -/
theorem specTotalElems_cons (e : JVal) (rest : List JVal) :
    specTotalElems (e :: rest) = specTotal e + specTotalElems rest := rfl

mutual

/-- The walk leaves the completeness flag set iff it was set and the value has
no missing field anywhere inside. -/
theorem fstNested_iff (v : JVal) (pre : String) (b : Bool)
    (mf : List (String × Nat)) :
    (checkNested v pre (b, mf)).1 = true ↔ (b = true ∧ specTotal v = 0) := by
  cases v with
  | obj fields =>
      simpa [checkNested, show specTotal (JVal.obj fields) = specTotalFields fields
        from rfl] using fstFields_iff fields pre b mf
  | arr elems =>
      simpa [checkNested, show specTotal (JVal.arr elems) = specTotalElems elems
        from rfl] using fstElems_iff elems pre b mf
  | null => simp [checkNested, show specTotal JVal.null = 0 from rfl]
  | str s => simp [checkNested, show specTotal (JVal.str s) = 0 from rfl]
  | num n => simp [checkNested, show specTotal (JVal.num n) = 0 from rfl]
  | bool c => simp [checkNested, show specTotal (JVal.bool c) = 0 from rfl]

/-- The mapping branch of `fstNested_iff`. -/
theorem fstFields_iff (fields : List (String × JVal)) (pre : String) (b : Bool)
    (mf : List (String × Nat)) :
    (checkFields fields pre (b, mf)).1 = true ↔
      (b = true ∧ specTotalFields fields = 0) := by
  cases fields with
  | nil => simp [checkFields, show specTotalFields [] = 0 from rfl]
  | cons kv rest =>
      obtain ⟨key, value⟩ := kv
      rw [checkFields_cons, specTotalFields_cons]
      by_cases hmiss : isMissing value
      · rw [if_pos hmiss, if_pos hmiss]
        rw [fstFields_iff rest pre false
          (bump mf (if pre = "" then key else pre ++ "." ++ key))]
        constructor
        · intro h
          exact absurd h.1 (by simp)
        · intro h
          exact absurd h.2 (by omega)
      · rw [if_neg hmiss, if_neg hmiss]
        cases value with
        | obj fs =>
            dsimp only
            have h1 := fstFields_iff rest pre
              (checkFields fs (if pre = "" then key else pre ++ "." ++ key) (b, mf)).1
              (checkFields fs (if pre = "" then key else pre ++ "." ++ key) (b, mf)).2
            simp only [Prod.mk.eta] at h1
            rw [h1, fstFields_iff fs (if pre = "" then key else pre ++ "." ++ key) b mf]
            rw [show specTotal (JVal.obj fs) = specTotalFields fs from rfl]
            constructor
            · rintro ⟨⟨hb, hfs⟩, hrest⟩
              exact ⟨hb, by omega⟩
            · rintro ⟨hb, hsum⟩
              exact ⟨⟨hb, by omega⟩, by omega⟩
        | arr es =>
            dsimp only
            have h1 := fstFields_iff rest pre
              (checkElems es (if pre = "" then key else pre ++ "." ++ key) (b, mf)).1
              (checkElems es (if pre = "" then key else pre ++ "." ++ key) (b, mf)).2
            simp only [Prod.mk.eta] at h1
            rw [h1, fstElems_iff es (if pre = "" then key else pre ++ "." ++ key) b mf]
            rw [show specTotal (JVal.arr es) = specTotalElems es from rfl]
            constructor
            · rintro ⟨⟨hb, hes⟩, hrest⟩
              exact ⟨hb, by omega⟩
            · rintro ⟨hb, hsum⟩
              exact ⟨⟨hb, by omega⟩, by omega⟩
        | null => simp [isMissing] at hmiss
        | str s =>
            dsimp only
            rw [fstFields_iff rest pre b mf]
            rw [show specTotal (JVal.str s) = 0 from rfl]
            constructor
            · rintro ⟨hb, hr⟩
              exact ⟨hb, by omega⟩
            · rintro ⟨hb, hr⟩
              exact ⟨hb, by omega⟩
        | num n =>
            dsimp only
            rw [fstFields_iff rest pre b mf]
            rw [show specTotal (JVal.num n) = 0 from rfl]
            constructor
            · rintro ⟨hb, hr⟩
              exact ⟨hb, by omega⟩
            · rintro ⟨hb, hr⟩
              exact ⟨hb, by omega⟩
        | bool c =>
            dsimp only
            rw [fstFields_iff rest pre b mf]
            rw [show specTotal (JVal.bool c) = 0 from rfl]
            constructor
            · rintro ⟨hb, hr⟩
              exact ⟨hb, by omega⟩
            · rintro ⟨hb, hr⟩
              exact ⟨hb, by omega⟩

/-- The sequence branch of `fstNested_iff`. -/
theorem fstElems_iff (elems : List JVal) (pre : String) (b : Bool)
    (mf : List (String × Nat)) :
    (checkElems elems pre (b, mf)).1 = true ↔
      (b = true ∧ specTotalElems elems = 0) := by
  cases elems with
  | nil => simp [checkElems, show specTotalElems [] = 0 from rfl]
  | cons e rest =>
      rw [checkElems_cons, specTotalElems_cons]
      have h1 := fstElems_iff rest pre
        (checkNested e pre (b, mf)).1 (checkNested e pre (b, mf)).2
      simp only [Prod.mk.eta] at h1
      rw [h1, fstNested_iff e pre b mf]
      constructor
      · rintro ⟨⟨hb, he⟩, hrest⟩
        exact ⟨hb, by omega⟩
      · rintro ⟨hb, hsum⟩
        exact ⟨⟨hb, by omega⟩, by omega⟩

end

/-- An item is reported complete iff it has zero missing fields anywhere in
its nested structure. -/
theorem checkItem_complete_iff (item : JVal) (mf : List (String × Nat)) :
    (checkItemCompleteness item mf).1 = true ↔ specTotal item = 0 := by
  unfold checkItemCompleteness
  rw [fstNested_iff]
  simp

/-- Scoring the items accumulates, per path, the missing occurrences of every
item. -/
theorem cnt_analyze_fold (items : List JVal) :
    ∀ c mf path,
      cnt ((items.foldl
        (fun acc item =>
          let r := checkItemCompleteness item acc.2
          (if r.1 then acc.1 + 1 else acc.1, r.2)) (c, mf)).2) path =
      cnt mf path + (items.map (fun it => specOcc it "" path)).sum := by
  induction items with
  | nil => intro c mf path; simp
  | cons it rest ih =>
      intro c mf path
      simp only [List.foldl_cons, List.map_cons, List.sum_cons]
      have h1 := ih (if (checkItemCompleteness it mf).1 then c + 1 else c)
        (checkItemCompleteness it mf).2 path
      have h2 : cnt ((checkItemCompleteness it mf)).2 path =
          cnt mf path + specOcc it "" path := cnt_nested it "" path true mf
      rw [h1, h2]
      omega

/-- The reported per-path count over a whole item list is the total number of
missing occurrences of that path. -/
theorem cnt_analyzeItems (items : List JVal) (path : String) :
    cnt (analyzeItems items).2 path =
      (items.map (fun it => specOcc it "" path)).sum := by
  simpa [cnt] using cnt_analyze_fold items 0 [] path

/-- Bumping keeps the existing key order and appends a first-seen path at the
end. -/
theorem bump_keys (mf : List (String × Nat)) (p2 : String) :
    (bump mf p2).map Prod.fst =
      if (mf.map Prod.fst).contains p2 then mf.map Prod.fst
      else mf.map Prod.fst ++ [p2] := by
  induction mf with
  | nil => simp [bump]
  | cons kv rest ih =>
      obtain ⟨k, c⟩ := kv
      by_cases h : k = p2
      · subst h
        simp [bump]
      · have hcc : ((k :: rest.map Prod.fst).contains p2) =
            ((rest.map Prod.fst).contains p2) := by
          simp [List.contains_cons, beq_iff_eq, Ne.symm h]
        simp only [bump, if_neg h, List.map_cons]
        rw [ih, hcc]
        by_cases hc : (rest.map Prod.fst).contains p2
        · rw [if_pos hc, if_pos hc]
        · rw [if_neg hc, if_neg hc]
          rfl

/-- The nested walk folds over sequence elements with an unchanged prefix. -/
theorem checkElems_foldl (es : List JVal) (pre : String)
    (st : Bool × List (String × Nat)) :
    checkElems es pre st = es.foldl (fun st e => checkNested e pre st) st := by
  induction es generalizing st with
  | nil => simp [checkElems]
  | cons e rest ih => rw [checkElems_cons, List.foldl_cons, ih]

/-- Counterexample to claim C6 as stated: one item whose nested list misses
`subs.name` twice is reported as `"subs.name: 2 items"`, although only one
item misses that field — the counter counts occurrences, not items. -/
theorem claim_C6_counterexample :
    (generateQualityReport [("items", JVal.arr cex6items)]).missing_fields =
      ["subs.name: 2 items"] ∧
    specItemsMissing cex6items "subs.name" = 1 ∧
    (generateQualityReport [("items", JVal.arr cex6items)]).missing_fields ≠
      ["subs.name: " ++ toString (specItemsMissing cex6items "subs.name")
        ++ " items"] := by
  refine ⟨rfl, rfl, ?_⟩
  rw [show specItemsMissing cex6items "subs.name" = 1 from rfl]
  rw [show (generateQualityReport [("items", JVal.arr cex6items)]).missing_fields =
    ["subs.name: 2 items"] from rfl]
  decide

/-- Claim C6 (amended: the reported per-path count is the number of missing
*occurrences* of that field path across all items, not the number of
items): missing means null or empty string; nested list elements keep the
unchanged dotted path; an item is complete iff nothing is missing inside
it; counts bump in place with first-seen paths appended; and the summary
renders each table entry as `"<path>: <count> items"`. -/
theorem claim_C6 (items : List JVal) (path : String) :
    (∀ v, isMissing v = true ↔ (v = JVal.null ∨ v = JVal.str "")) ∧
    (∀ es pre st, checkElems es pre st =
        es.foldl (fun st e => checkNested e pre st) st) ∧
    cnt (analyzeItems items).2 path =
      (items.map (fun it => specOcc it "" path)).sum ∧
    (∀ item mf, ((checkItemCompleteness item mf).1 = true ↔ specTotal item = 0)) ∧
    (∀ mf p2, (bump mf p2).map Prod.fst =
        if (mf.map Prod.fst).contains p2 then mf.map Prod.fst
        else mf.map Prod.fst ++ [p2]) ∧
    (generateQualityReport [("items", JVal.arr items)]).missing_fields =
      (analyzeItems items).2.map
        (fun kv => kv.1 ++ ": " ++ toString kv.2 ++ " items") := by
  refine ⟨?_, checkElems_foldl, cnt_analyzeItems items path,
    checkItem_complete_iff, bump_keys, ?_⟩
  · intro v
    cases v <;> simp [isMissing]
  · by_cases hi : items = []
    · subst hi
      rfl
    · have hlen : items.length ≠ 0 := fun h => hi (List.length_eq_zero.mp h)
      unfold generateQualityReport
      rw [show firstListValue [("items", JVal.arr items)] = items from rfl]
      rw [if_neg hlen]

/-- Witness for the amended C6 at the nested-list item: the reported count is
the occurrence total, here 2 for a single item. -/
theorem claim_C6_witness :
    cnt (analyzeItems cex6items).2 "subs.name" =
      (cex6items.map (fun it => specOcc it "" "subs.name")).sum ∧
    cnt (analyzeItems cex6items).2 "subs.name" = 2 := by
  exact ⟨(claim_C6 cex6items "subs.name").2.2.1, rfl⟩

end MCPWeb
